import Mathlib

/-!
Shallow embedding of `lib/config/configuration.js` (the JSCS configuration
engine) and proofs about its configuration-processing algorithm.

Modelling conventions:
* JavaScript values are the inductive `JsVal`; machine integers are `Int`.
  A plugin callable is modelled by the sequence of registry calls
  (`registerRule` / `registerPreset`) it performs when invoked with the
  engine, which is the plugin contract used by `_loadPlugin`.  A rule
  instance is modelled by a numeric identity together with the string its
  `getOptionName()` returns.
* JavaScript objects are ordered association lists; property update keeps
  the position of an existing key and appends a fresh key, matching JS
  enumeration order for non-integer keys.
* Thrown exceptions are values of `JsErr`: `assertErr` for failures of
  `assert(...)`, `typeErr` for TypeErrors (calling a missing method,
  reading a property of `undefined`/`null`), `genericErr` for
  `throw new Error(...)`.
* Engine-state mutation performed before a throw is kept (the exception
  propagates out of `load` but `this` retains the mutations), so the
  stateful functions return the reached state alongside the outcome.
* `rule.configure(settings)` mutates rule-internal state that this module
  never reads back; the calls are recorded in an explicit trace.
-/

namespace JscsConfig

mutual

/-- A JavaScript runtime value, restricted to the shapes that can reach the
configuration engine. -/
inductive JsVal : Type where
  | undefV : JsVal
  | nullV : JsVal
  | boolV : Bool → JsVal
  | numV : Int → JsVal
  | strV : String → JsVal
  | arrV : List JsVal → JsVal
  | objV : List (String × JsVal) → JsVal
  | funV : List RegAction → JsVal
  | ruleV : Nat → String → JsVal

/-- A registry call a plugin callable performs against the engine. -/
inductive RegAction : Type where
  | regRule : Nat → String → RegAction
  | regPreset : String → JsVal → RegAction

end

/-- JavaScript truthiness. -/
def truthy : JsVal → Bool
  | .undefV => false
  | .nullV => false
  | .boolV b => b
  | .numV n => n != 0
  | .strV s => s != ""
  | .arrV _ => true
  | .objV _ => true
  | .funV _ => true
  | .ruleV _ _ => true

/-- `Array.isArray`. -/
def isArr : JsVal → Bool
  | .arrV _ => true
  | _ => false

/-- `typeof v === "string"`. -/
def isStr : JsVal → Bool
  | .strV _ => true
  | _ => false

/-- `typeof v === "function"`. -/
def isFun : JsVal → Bool
  | .funV _ => true
  | _ => false

/-- `typeof v === "object"` (true for `null`, arrays, plain objects and rule
instances). -/
def typeofObject : JsVal → Bool
  | .nullV => true
  | .arrV _ => true
  | .objV _ => true
  | .ruleV _ _ => true
  | _ => false

/-- Whether the value is an instantiated rule object (has `getOptionName`). -/
def isRuleObj : JsVal → Bool
  | .ruleV _ _ => true
  | _ => false

/-- Property assignment `o[k] = v` on a JS object modelled as an ordered
association list: an existing key keeps its position, a new key is appended. -/
def setKey {α : Type} (o : List (String × α)) (k : String) (v : α) :
    List (String × α) :=
  match o with
  | [] => [(k, v)]
  | kv :: rest => if kv.1 == k then (k, v) :: rest else kv :: setKey rest k v

/-- Property read `o[k]`, `none` when the key is absent. -/
def lookupKey {α : Type} (o : List (String × α)) (k : String) : Option α :=
  (o.find? (fun kv => kv.1 == k)).map (fun kv => kv.2)

/-- Property read `o[k]` as a JS value (`undefined` when absent). -/
def getVal (o : List (String × JsVal)) (k : String) : JsVal :=
  match lookupKey o k with
  | some v => v
  | none => .undefV

/-- Removal of every entry for key `k` (used to compare a configuration with
the same configuration with one key absent). -/
def removeKey (o : List (String × JsVal)) (k : String) :
    List (String × JsVal) :=
  o.filter (fun kv => kv.1 != k)

/-- A thrown JavaScript exception. -/
inductive JsErr : Type where
  | assertErr : String → JsErr
  | typeErr : String → JsErr
  | genericErr : String → JsErr
deriving DecidableEq

/-- The engine state owned by a `Configuration` instance: `_presets`,
`_rules` (option name mapped to the identity of the stored rule instance,
which is registered under its own option name), `_configuredRules`,
`_fileExtensions`, `_excludedFiles`. -/
structure ConfigState : Type where
  presets : List (String × JsVal)
  rules : List (String × Nat)
  configuredRules : JsVal
  fileExtensions : List JsVal
  excludedFiles : List JsVal

/-- The constructor `Configuration()`. -/
def initialState : ConfigState :=
  { presets := []
    rules := []
    configuredRules := .arrV []
    fileExtensions := [.strV ".js"]
    excludedFiles := [] }

/-- One recorded `rule.configure(settings)` call: the identity of the rule
instance, its option name, and the settings value it received. -/
structure ConfigureCall : Type where
  ruleId : Nat
  optionName : String
  settings : JsVal

/-- Outcome of `Configuration.prototype.load`: the engine state reached
(mutations before a throw are kept), the `configure` calls performed, and
normal return versus thrown exception. -/
structure LoadResult : Type where
  state : ConfigState
  calls : List ConfigureCall
  result : Except JsErr Unit

/-- Effect of one registry call made by a plugin body. -/
def runRegAction (s : ConfigState) : RegAction → ConfigState
  | .regRule id name => { s with rules := setKey s.rules name id }
  | .regPreset name cfg => { s with presets := setKey s.presets name cfg }

/-- Effect of a sequence of registry calls. -/
def runActions (s : ConfigState) : List RegAction → ConfigState
  | [] => s
  | a :: as => runActions (runRegAction s a) as

/-- `Configuration.prototype.registerRule`: stores the rule under
`rule.getOptionName()`; a non-rule argument makes the `getOptionName` access
throw a TypeError. -/
def registerRule (s : ConfigState) (rule : JsVal) :
    Except JsErr ConfigState :=
  match rule with
  | .ruleV id name => .ok { s with rules := setKey s.rules name id }
  | .nullV => .error (.typeErr "Cannot read property getOptionName of null")
  | .undefV =>
      .error (.typeErr "Cannot read property getOptionName of undefined")
  | _ => .error (.typeErr "rule.getOptionName is not a function")

/-- `Configuration.prototype.registerPreset`. -/
def registerPreset (s : ConfigState) (name : String) (cfg : JsVal) :
    ConfigState :=
  { s with presets := setKey s.presets name cfg }

/-- `Configuration.prototype._loadPlugin`: asserts the argument is callable,
then invokes it with the engine. -/
def loadPlugin (s : ConfigState) (p : JsVal) : Except JsErr ConfigState :=
  match p with
  | .funV acts => .ok (runActions s acts)
  | _ => .error (.assertErr "plugin should be a function")

/-- `config.plugins.forEach(this._loadPlugin, this)`: earlier plugins keep
their side effects when a later element fails the callable assertion. -/
def runPlugins : ConfigState → List JsVal → ConfigState × Option JsErr
  | s, [] => (s, none)
  | s, p :: ps =>
    match loadPlugin s p with
    | .ok s1 => runPlugins s1 ps
    | .error e => (s, some e)

/-- `Configuration.prototype._loadAdditionalRule`: asserts
`typeof additionalRule === "object"` and then registers it. -/
def loadAdditionalRule (s : ConfigState) (r : JsVal) :
    Except JsErr ConfigState :=
  if typeofObject r then registerRule s r
  else .error (.assertErr "additionalRule should be an object")

/-- The fixed reserved option keys (`BUILTIN_OPTIONS`). -/
def BUILTIN_OPTIONS : List String :=
  ["plugins", "preset", "excludeFiles", "additionalRules", "fileExtensions"]

/-- Truthiness of `BUILTIN_OPTIONS[key]`. -/
def isBuiltin (k : String) : Bool :=
  k == "plugins" || k == "preset" || k == "excludeFiles" ||
    k == "additionalRules" || k == "fileExtensions"

/-- The plugins step of `_processConfig`: presence test by truthiness, array
assertion, then `forEach(this._loadPlugin, this)`. -/
def pluginsPhase (s : ConfigState) (cfg : List (String × JsVal)) :
    ConfigState × Option JsErr :=
  if truthy (getVal cfg "plugins") then
    match getVal cfg "plugins" with
    | .arrV ps => runPlugins s ps
    | _ => (s, some (.assertErr "plugins option requires array value"))
  else (s, none)

/-- The preset step of `_processConfig`.  After the string and registration
assertions the source calls `this.process(presetData)`, but no `process`
method exists on the prototype, so a registered preset makes the step throw
a TypeError; the copy loop over the preset result below that call is
unreachable.  The step never mutates the state. -/
def presetStep (s : ConfigState) (cfg : List (String × JsVal)) :
    Option JsErr :=
  if truthy (getVal cfg "preset") then
    match getVal cfg "preset" with
    | .strV name =>
      if truthy (getVal s.presets name) then
        some (.typeErr "this.process is not a function")
      else
        some (.assertErr ("preset \"" ++ name ++ "\" was not found"))
    | _ => some (.assertErr "preset option requires string value")
  else none

/-- The fileExtensions step of `_processConfig`:
`this._fileExtensions = [].concat(config.fileExtensions)` after the
string-or-array assertion. -/
def fileExtStep (s : ConfigState) (cfg : List (String × JsVal)) :
    ConfigState × Option JsErr :=
  if truthy (getVal cfg "fileExtensions") then
    match getVal cfg "fileExtensions" with
    | .strV str => ({ s with fileExtensions := [.strV str] }, none)
    | .arrV xs => ({ s with fileExtensions := xs }, none)
    | _ =>
      (s, some (.assertErr "fileExtensions option requires string or array value"))
  else (s, none)

/-- The excludeFiles step of `_processConfig`. -/
def excludeStep (s : ConfigState) (cfg : List (String × JsVal)) :
    ConfigState × Option JsErr :=
  if truthy (getVal cfg "excludeFiles") then
    match getVal cfg "excludeFiles" with
    | .arrV xs => ({ s with excludedFiles := xs }, none)
    | _ => (s, some (.assertErr "excludeFiles option requires array value"))
  else (s, none)

/-- The additionalRules step of `_processConfig`.  After the array assertion
the source reads `config.additionalRules.plugins`, which is `undefined` on
an array, and calls `.forEach` on it, so every truthy array value throws a
TypeError before any element reaches `_loadAdditionalRule`. -/
def additionalRulesStep (cfg : List (String × JsVal)) : Option JsErr :=
  if truthy (getVal cfg "additionalRules") then
    match getVal cfg "additionalRules" with
    | .arrV _ => some (.typeErr "Cannot read property forEach of undefined")
    | _ => some (.assertErr "additionalRules option requires array value")
  else none

/-- The final copy loop of `_processConfig`: every non-reserved key of the
raw config is written into the rule-settings mapping. -/
def directCopy (entries : List (String × JsVal))
    (rs : List (String × JsVal)) : List (String × JsVal) :=
  match entries with
  | [] => rs
  | kv :: rest =>
    directCopy rest (if isBuiltin kv.1 then rs else setKey rs kv.1 kv.2)

/-- The steps of `_processConfig` after the plugins step, in source order:
preset, fileExtensions, excludeFiles, additionalRules, direct key copy. -/
def afterPlugins (s : ConfigState) (cfg : List (String × JsVal)) :
    ConfigState × Except JsErr (List (String × JsVal)) :=
  match presetStep s cfg with
  | some e => (s, .error e)
  | none =>
    match (fileExtStep s cfg).2 with
    | some e => ((fileExtStep s cfg).1, .error e)
    | none =>
      match (excludeStep (fileExtStep s cfg).1 cfg).2 with
      | some e => ((excludeStep (fileExtStep s cfg).1 cfg).1, .error e)
      | none =>
        match additionalRulesStep cfg with
        | some e => ((excludeStep (fileExtStep s cfg).1 cfg).1, .error e)
        | none =>
          ((excludeStep (fileExtStep s cfg).1 cfg).1,
           .ok (directCopy cfg []))

/-- `Configuration.prototype._processConfig`: returns the reached state and
either the rule-settings mapping or the thrown exception. -/
def processConfig (s : ConfigState) (cfg : List (String × JsVal)) :
    ConfigState × Except JsErr (List (String × JsVal)) :=
  match pluginsPhase s cfg with
  | (s1, some e) => (s1, .error e)
  | (s1, none) => afterPlugins s1 cfg

/-- The key loop of `load`: for each rule-settings entry in order, a
registered rule receives `configure` with the entry value, an unmatched key
is accumulated into the unsupported list. -/
def applyRules (rules : List (String × Nat)) :
    List (String × JsVal) → List ConfigureCall × List String
  | [] => ([], [])
  | kv :: rest =>
    let r := applyRules rules rest
    match lookupKey rules kv.1 with
    | some id => (⟨id, kv.1, kv.2⟩ :: r.1, r.2)
    | none => (r.1, kv.1 :: r.2)

/-- `Configuration.prototype.load`.  On a processing throw the exception
propagates and `_configuredRules` is untouched; otherwise the key loop runs,
`_configuredRules` is assigned the return value of `forEach` — which is
`undefined` — and `load` throws when the unsupported list is non-empty. -/
def load (s : ConfigState) (cfg : List (String × JsVal)) : LoadResult :=
  match processConfig s cfg with
  | (s1, .error e) => ⟨s1, [], .error e⟩
  | (s1, .ok rs) =>
    let pr := applyRules s1.rules rs
    ⟨{ s1 with configuredRules := .undefV },
     pr.1,
     if pr.2.isEmpty then .ok ()
     else
       .error (.genericErr
         ("Unsupported rules: " ++ String.intercalate ", " pr.2))⟩

/-- `Configuration.prototype.getConfiguredRules`. -/
def getConfiguredRules (s : ConfigState) : JsVal :=
  s.configuredRules

/-- `Configuration.prototype.getExcludedFiles`. -/
def getExcludedFiles (s : ConfigState) : List JsVal :=
  s.excludedFiles

/-- `Configuration.prototype.getFileExtensions`. -/
def getFileExtensions (s : ConfigState) : List JsVal :=
  s.fileExtensions

/-! ### Helper notions used to state and prove the properties -/

/-- The registry calls of the plugin elements up to the first element that
fails the callable assertion. -/
def goodActs : List JsVal → List RegAction
  | [] => []
  | .funV acts :: ps => acts ++ goodActs ps
  | _ :: _ => []

/-- The exception thrown by the plugin `forEach`, if any. -/
def badPlugin : List JsVal → Option JsErr
  | [] => none
  | .funV _ :: ps => badPlugin ps
  | _ :: _ => some (.assertErr "plugin should be a function")

/-- The registry calls the plugins step of a given configuration performs. -/
def cfgActs (cfg : List (String × JsVal)) : List RegAction :=
  match getVal cfg "plugins" with
  | .arrV ps => goodActs ps
  | _ => []

/-- The exception thrown by the plugins step of a given configuration. -/
def pluginsErr (cfg : List (String × JsVal)) : Option JsErr :=
  if truthy (getVal cfg "plugins") then
    match getVal cfg "plugins" with
    | .arrV ps => badPlugin ps
    | _ => some (.assertErr "plugins option requires array value")
  else none

/-- The identity of the last rule a sequence of registry calls writes at a
given option name. -/
def lastRuleWrite : List RegAction → String → Option Nat
  | [], _ => none
  | .regRule id n :: as, k =>
    match lastRuleWrite as k with
    | some j => some j
    | none => if n == k then some id else none
  | .regPreset _ _ :: as, k => lastRuleWrite as k

/-- The last preset value a sequence of registry calls writes at a given
preset name. -/
def lastPresetWrite : List RegAction → String → Option JsVal
  | [], _ => none
  | .regPreset n v :: as, k =>
    match lastPresetWrite as k with
    | some w => some w
    | none => if n == k then some v else none
  | .regRule _ _ :: as, k => lastPresetWrite as k

/-- The `configure` calls `load` performs for a rule-settings mapping: one
per key registered in the rule registry, in encounter order. -/
def matchedCalls (rules : List (String × Nat))
    (rs : List (String × JsVal)) : List ConfigureCall :=
  rs.filterMap fun kv => (lookupKey rules kv.1).map fun id => ConfigureCall.mk id kv.1 kv.2

/-- The keys of a rule-settings mapping matching no registered rule, in
encounter order. -/
def unsupportedKeys (rules : List (String × Nat))
    (rs : List (String × JsVal)) : List String :=
  (rs.filter fun kv => (lookupKey rules kv.1).isNone).map Prod.fst

/-! ### Lemmas about association-list primitives -/

theorem beq_false_symm {k k' : String} (h : (k' == k) = false) :
    (k == k') = false := by
  by_cases hc : (k == k') = true
  · have hkk : k = k' := by simpa using hc
    subst hkk
    simp at h
  · simpa using hc

theorem lookupKey_nil {α : Type} (k : String) :
    lookupKey ([] : List (String × α)) k = none := rfl

theorem lookupKey_cons {α : Type} (kv : String × α)
    (rest : List (String × α)) (k : String) :
    lookupKey (kv :: rest) k =
      if kv.1 == k then some kv.2 else lookupKey rest k := by
  by_cases h : (kv.1 == k) = true
  · simp [lookupKey, List.find?, h]
  · simp only [Bool.not_eq_true] at h
    simp [lookupKey, List.find?, h]

theorem lookupKey_setKey_self {α : Type} (o : List (String × α)) (k : String)
    (v : α) : lookupKey (setKey o k v) k = some v := by
  induction o with
  | nil => simp [setKey, lookupKey_cons]
  | cons kv rest ih =>
    by_cases h : (kv.1 == k) = true
    · simp [setKey, h, lookupKey_cons]
    · simp only [Bool.not_eq_true] at h
      simp [setKey, h, lookupKey_cons, ih]

theorem lookupKey_setKey_ne {α : Type} (o : List (String × α))
    (k k' : String) (v : α) (h : (k' == k) = false) :
    lookupKey (setKey o k v) k' = lookupKey o k' := by
  induction o with
  | nil => simp [setKey, lookupKey_cons, lookupKey_nil, beq_false_symm h]
  | cons kv rest ih =>
    by_cases hk : (kv.1 == k) = true
    · have hkv : kv.1 = k := by simpa using hk
      simp [setKey, hk, lookupKey_cons, beq_false_symm h, hkv]
    · simp only [Bool.not_eq_true] at hk
      simp [setKey, hk, lookupKey_cons, ih]

theorem lookupKey_removeKey_self (o : List (String × JsVal)) (k : String) :
    lookupKey (removeKey o k) k = none := by
  induction o with
  | nil => simp [removeKey, lookupKey_nil]
  | cons kv rest ih =>
    by_cases hk : (kv.1 == k) = true
    · simpa [removeKey, List.filter_cons, bne, hk] using ih
    · simp only [Bool.not_eq_true] at hk
      simpa [removeKey, List.filter_cons, bne, hk, lookupKey_cons] using ih

theorem lookupKey_removeKey_ne (o : List (String × JsVal)) (k k' : String)
    (h : (k' == k) = false) :
    lookupKey (removeKey o k) k' = lookupKey o k' := by
  induction o with
  | nil => simp [removeKey]
  | cons kv rest ih =>
    by_cases hk : (kv.1 == k) = true
    · have hkv : kv.1 = k := by simpa using hk
      have hne : (kv.1 == k') = false := by
        rw [hkv]; exact beq_false_symm h
      simpa [removeKey, List.filter_cons, bne, hk, lookupKey_cons, hne]
        using ih
    · simp only [Bool.not_eq_true] at hk
      by_cases hk' : (kv.1 == k') = true
      · simp [removeKey, List.filter_cons, bne, hk, lookupKey_cons, hk']
      · simp only [Bool.not_eq_true] at hk'
        simpa [removeKey, List.filter_cons, bne, hk, lookupKey_cons, hk']
          using ih

theorem getVal_removeKey_self (o : List (String × JsVal)) (k : String) :
    getVal (removeKey o k) k = .undefV := by
  simp [getVal, lookupKey_removeKey_self]

theorem getVal_removeKey_ne (o : List (String × JsVal)) (k k' : String)
    (h : (k' == k) = false) :
    getVal (removeKey o k) k' = getVal o k' := by
  simp [getVal, lookupKey_removeKey_ne o k k' h]

theorem mem_setKey {α : Type} (o : List (String × α)) (k : String) (v : α)
    (x : String × α) (hx : x ∈ setKey o k v) : x.1 = k ∨ x ∈ o := by
  induction o with
  | nil =>
    simp [setKey] at hx
    left
    simp [hx]
  | cons kv rest ih =>
    by_cases hk : (kv.1 == k) = true
    · simp only [setKey, hk, if_pos] at hx
      rcases List.mem_cons.mp hx with hx | hx
      · left; simp [hx]
      · right; exact List.mem_cons_of_mem _ hx
    · simp only [Bool.not_eq_true] at hk
      simp only [setKey, hk, Bool.false_eq_true, if_false] at hx
      rcases List.mem_cons.mp hx with hx | hx
      · right; exact hx ▸ List.mem_cons_self _ _
      · rcases ih hx with h1 | h1
        · left; exact h1
        · right; exact List.mem_cons_of_mem _ h1

/-! ### Lemmas about plugin execution -/

theorem runActions_append (s : ConfigState) (as bs : List RegAction) :
    runActions s (as ++ bs) = runActions (runActions s as) bs := by
  induction as generalizing s with
  | nil => rfl
  | cons a rest ih => simp [runActions, ih]

theorem runActions_configuredRules (s : ConfigState) (as : List RegAction) :
    (runActions s as).configuredRules = s.configuredRules := by
  induction as generalizing s with
  | nil => rfl
  | cons a rest ih =>
    cases a <;> simp [runActions, runRegAction, ih]

theorem runActions_rules_lookup (s : ConfigState) (as : List RegAction)
    (k : String) :
    lookupKey (runActions s as).rules k =
      match lastRuleWrite as k with
      | some id => some id
      | none => lookupKey s.rules k := by
  induction as generalizing s with
  | nil => rfl
  | cons a rest ih =>
    cases a with
    | regRule id n =>
      rw [show runActions s (.regRule id n :: rest) =
        runActions { s with rules := setKey s.rules n id } rest from rfl]
      rw [ih]
      cases hw : lastRuleWrite rest k with
      | some j => simp [lastRuleWrite, hw]
      | none =>
        by_cases hn : (n == k) = true
        · have : n = k := by simpa using hn
          simp [lastRuleWrite, hw, hn, this, lookupKey_setKey_self]
        · simp only [Bool.not_eq_true] at hn
          have hsym : (k == n) = false := beq_false_symm hn
          simp [lastRuleWrite, hw, hn, lookupKey_setKey_ne _ _ _ _ hsym]
    | regPreset n v =>
      rw [show runActions s (.regPreset n v :: rest) =
        runActions { s with presets := setKey s.presets n v } rest from rfl]
      rw [ih]
      rfl

theorem runActions_presets_lookup (s : ConfigState) (as : List RegAction)
    (k : String) :
    lookupKey (runActions s as).presets k =
      match lastPresetWrite as k with
      | some w => some w
      | none => lookupKey s.presets k := by
  induction as generalizing s with
  | nil => rfl
  | cons a rest ih =>
    cases a with
    | regPreset n v =>
      rw [show runActions s (.regPreset n v :: rest) =
        runActions { s with presets := setKey s.presets n v } rest from rfl]
      rw [ih]
      cases hw : lastPresetWrite rest k with
      | some w => simp [lastPresetWrite, hw]
      | none =>
        by_cases hn : (n == k) = true
        · have : n = k := by simpa using hn
          simp [lastPresetWrite, hw, hn, this, lookupKey_setKey_self]
        · simp only [Bool.not_eq_true] at hn
          have hsym : (k == n) = false := beq_false_symm hn
          simp [lastPresetWrite, hw, hn, lookupKey_setKey_ne _ _ _ _ hsym]
    | regRule id n =>
      rw [show runActions s (.regRule id n :: rest) =
        runActions { s with rules := setKey s.rules n id } rest from rfl]
      rw [ih]
      rfl

/-- Pointwise idempotence of re-running the same registry calls: a state
whose rule registry already answers like `runActions s as` keeps answering
like it after running `as` again. -/
theorem runActions_rules_idem (s t : ConfigState) (as : List RegAction)
    (k : String)
    (h : lookupKey t.rules k = lookupKey (runActions s as).rules k) :
    lookupKey (runActions t as).rules k =
      lookupKey (runActions s as).rules k := by
  rw [runActions_rules_lookup, h, runActions_rules_lookup]
  cases lastRuleWrite as k <;> rfl

theorem runActions_presets_idem (s t : ConfigState) (as : List RegAction)
    (k : String)
    (h : lookupKey t.presets k = lookupKey (runActions s as).presets k) :
    lookupKey (runActions t as).presets k =
      lookupKey (runActions s as).presets k := by
  rw [runActions_presets_lookup, h, runActions_presets_lookup]
  cases lastPresetWrite as k <;> rfl

theorem runPlugins_eq (s : ConfigState) (ps : List JsVal) :
    runPlugins s ps = (runActions s (goodActs ps), badPlugin ps) := by
  induction ps generalizing s with
  | nil => rfl
  | cons p rest ih =>
    cases p with
    | funV acts =>
      simp [runPlugins, loadPlugin, goodActs, badPlugin, ih,
        runActions_append]
    | undefV => rfl
    | nullV => rfl
    | boolV b => rfl
    | numV n => rfl
    | strV str => rfl
    | arrV xs => rfl
    | objV fs => rfl
    | ruleV id n => rfl

theorem pluginsPhase_eq (s : ConfigState) (cfg : List (String × JsVal)) :
    pluginsPhase s cfg = (runActions s (cfgActs cfg), pluginsErr cfg) := by
  unfold pluginsPhase cfgActs pluginsErr
  by_cases ht : truthy (getVal cfg "plugins") = true
  · simp only [ht, if_true]
    cases hv : getVal cfg "plugins" with
    | arrV ps => exact runPlugins_eq s ps
    | undefV => simp [hv, truthy] at ht
    | nullV => simp [hv, truthy] at ht
    | boolV b => rfl
    | numV n => rfl
    | strV str => rfl
    | objV fs => rfl
    | funV acts => rfl
    | ruleV id n => rfl
  · simp only [Bool.not_eq_true] at ht
    simp only [ht, Bool.false_eq_true, if_false]
    cases hv : getVal cfg "plugins" <;>
      first
        | rfl
        | (rw [hv] at ht; simp [truthy] at ht)

/-! ### Structural lemmas about the processing steps -/

/-- The exception thrown by the fileExtensions step, determined by the
configuration alone. -/
def fileExtErr (cfg : List (String × JsVal)) : Option JsErr :=
  if truthy (getVal cfg "fileExtensions") then
    match getVal cfg "fileExtensions" with
    | .strV _ => none
    | .arrV _ => none
    | _ => some (.assertErr "fileExtensions option requires string or array value")
  else none

/-- The exception thrown by the excludeFiles step, determined by the
configuration alone. -/
def excludeErr (cfg : List (String × JsVal)) : Option JsErr :=
  if truthy (getVal cfg "excludeFiles") then
    match getVal cfg "excludeFiles" with
    | .arrV _ => none
    | _ => some (.assertErr "excludeFiles option requires array value")
  else none

/-- The outcome component of the post-plugin steps, as a function of the
preset-step outcome and the configuration. -/
def apRes (pe : Option JsErr) (cfg : List (String × JsVal)) :
    Except JsErr (List (String × JsVal)) :=
  match pe with
  | some e => .error e
  | none =>
    match fileExtErr cfg with
    | some e => .error e
    | none =>
      match excludeErr cfg with
      | some e => .error e
      | none =>
        match additionalRulesStep cfg with
        | some e => .error e
        | none => .ok (directCopy cfg [])

theorem fileExtStep_rules (s : ConfigState) (cfg : List (String × JsVal)) :
    ((fileExtStep s cfg).1).rules = s.rules := by
  unfold fileExtStep
  split
  · split <;> rfl
  · rfl

theorem fileExtStep_presets (s : ConfigState) (cfg : List (String × JsVal)) :
    ((fileExtStep s cfg).1).presets = s.presets := by
  unfold fileExtStep
  split
  · split <;> rfl
  · rfl

theorem fileExtStep_configuredRules (s : ConfigState)
    (cfg : List (String × JsVal)) :
    ((fileExtStep s cfg).1).configuredRules = s.configuredRules := by
  unfold fileExtStep
  split
  · split <;> rfl
  · rfl

theorem fileExtStep_snd (s : ConfigState) (cfg : List (String × JsVal)) :
    (fileExtStep s cfg).2 = fileExtErr cfg := by
  unfold fileExtStep fileExtErr
  split
  · split <;> rfl
  · rfl

theorem excludeStep_rules (s : ConfigState) (cfg : List (String × JsVal)) :
    ((excludeStep s cfg).1).rules = s.rules := by
  unfold excludeStep
  split
  · split <;> rfl
  · rfl

theorem excludeStep_presets (s : ConfigState) (cfg : List (String × JsVal)) :
    ((excludeStep s cfg).1).presets = s.presets := by
  unfold excludeStep
  split
  · split <;> rfl
  · rfl

theorem excludeStep_configuredRules (s : ConfigState)
    (cfg : List (String × JsVal)) :
    ((excludeStep s cfg).1).configuredRules = s.configuredRules := by
  unfold excludeStep
  split
  · split <;> rfl
  · rfl

theorem excludeStep_snd (s : ConfigState) (cfg : List (String × JsVal)) :
    (excludeStep s cfg).2 = excludeErr cfg := by
  unfold excludeStep excludeErr
  split
  · split <;> rfl
  · rfl

theorem presetStep_congr (s t : ConfigState) (cfg : List (String × JsVal))
    (h : ∀ n, lookupKey s.presets n = lookupKey t.presets n) :
    presetStep s cfg = presetStep t cfg := by
  simp only [presetStep, getVal, h]

theorem afterPlugins_rules (s : ConfigState) (cfg : List (String × JsVal)) :
    ((afterPlugins s cfg).1).rules = s.rules := by
  have hfe := fileExtStep_rules s cfg
  have hex := (excludeStep_rules (fileExtStep s cfg).1 cfg).trans hfe
  unfold afterPlugins
  cases presetStep s cfg with
  | some e => rfl
  | none =>
    cases (fileExtStep s cfg).2 with
    | some e => exact hfe
    | none =>
      cases (excludeStep (fileExtStep s cfg).1 cfg).2 with
      | some e => exact hex
      | none => cases additionalRulesStep cfg <;> exact hex

theorem afterPlugins_presets (s : ConfigState)
    (cfg : List (String × JsVal)) :
    ((afterPlugins s cfg).1).presets = s.presets := by
  have hfe := fileExtStep_presets s cfg
  have hex := (excludeStep_presets (fileExtStep s cfg).1 cfg).trans hfe
  unfold afterPlugins
  cases presetStep s cfg with
  | some e => rfl
  | none =>
    cases (fileExtStep s cfg).2 with
    | some e => exact hfe
    | none =>
      cases (excludeStep (fileExtStep s cfg).1 cfg).2 with
      | some e => exact hex
      | none => cases additionalRulesStep cfg <;> exact hex

theorem afterPlugins_configuredRules (s : ConfigState)
    (cfg : List (String × JsVal)) :
    ((afterPlugins s cfg).1).configuredRules = s.configuredRules := by
  have hfe := fileExtStep_configuredRules s cfg
  have hex :=
    (excludeStep_configuredRules (fileExtStep s cfg).1 cfg).trans hfe
  unfold afterPlugins
  cases presetStep s cfg with
  | some e => rfl
  | none =>
    cases (fileExtStep s cfg).2 with
    | some e => exact hfe
    | none =>
      cases (excludeStep (fileExtStep s cfg).1 cfg).2 with
      | some e => exact hex
      | none => cases additionalRulesStep cfg <;> exact hex

theorem afterPlugins_snd (s : ConfigState) (cfg : List (String × JsVal)) :
    (afterPlugins s cfg).2 = apRes (presetStep s cfg) cfg := by
  unfold afterPlugins apRes
  cases presetStep s cfg with
  | some e => rfl
  | none =>
    rw [fileExtStep_snd, excludeStep_snd]
    cases fileExtErr cfg with
    | some e => rfl
    | none =>
      cases excludeErr cfg with
      | some e => rfl
      | none => cases additionalRulesStep cfg <;> rfl

theorem afterPlugins_snd_congr (s t : ConfigState)
    (cfg : List (String × JsVal))
    (h : ∀ n, lookupKey s.presets n = lookupKey t.presets n) :
    (afterPlugins s cfg).2 = (afterPlugins t cfg).2 := by
  rw [afterPlugins_snd, afterPlugins_snd, presetStep_congr s t cfg h]

theorem processConfig_eq (s : ConfigState) (cfg : List (String × JsVal)) :
    processConfig s cfg =
      match pluginsErr cfg with
      | some e => (runActions s (cfgActs cfg), .error e)
      | none => afterPlugins (runActions s (cfgActs cfg)) cfg := by
  unfold processConfig
  rw [pluginsPhase_eq]
  cases pluginsErr cfg <;> rfl

/-! ### Lemmas about the key loop of `load` -/

theorem applyRules_eq (R : List (String × Nat))
    (rs : List (String × JsVal)) :
    applyRules R rs = (matchedCalls R rs, unsupportedKeys R rs) := by
  induction rs with
  | nil => rfl
  | cons kv rest ih =>
    cases hl : lookupKey R kv.1 with
    | some id =>
      simp [applyRules, matchedCalls, unsupportedKeys, List.filterMap_cons,
        List.filter_cons, hl, ih]
    | none =>
      simp [applyRules, matchedCalls, unsupportedKeys, List.filterMap_cons,
        List.filter_cons, hl, ih]

theorem applyRules_congr (R R' : List (String × Nat))
    (rs : List (String × JsVal))
    (h : ∀ k, lookupKey R k = lookupKey R' k) :
    applyRules R rs = applyRules R' rs := by
  induction rs with
  | nil => rfl
  | cons kv rest ih =>
    simp only [applyRules, h kv.1, ih]

theorem load_error (s : ConfigState) (cfg : List (String × JsVal))
    (s1 : ConfigState) (e : JsErr)
    (h : processConfig s cfg = (s1, .error e)) :
    load s cfg = ⟨s1, [], .error e⟩ := by
  unfold load
  rw [h]

theorem load_ok (s : ConfigState) (cfg : List (String × JsVal))
    (s1 : ConfigState) (rs : List (String × JsVal))
    (h : processConfig s cfg = (s1, .ok rs)) :
    load s cfg =
      ⟨{ s1 with configuredRules := .undefV },
       (applyRules s1.rules rs).1,
       if (applyRules s1.rules rs).2.isEmpty then .ok ()
       else .error (.genericErr ("Unsupported rules: " ++
         String.intercalate ", " (applyRules s1.rules rs).2))⟩ := by
  unfold load
  rw [h]

theorem processConfig_eq_err (s : ConfigState) (cfg : List (String × JsVal))
    (e : JsErr) (h : pluginsErr cfg = some e) :
    processConfig s cfg = (runActions s (cfgActs cfg), .error e) := by
  unfold processConfig
  rw [pluginsPhase_eq, h]

theorem processConfig_eq_ok (s : ConfigState) (cfg : List (String × JsVal))
    (h : pluginsErr cfg = none) :
    processConfig s cfg = afterPlugins (runActions s (cfgActs cfg)) cfg := by
  unfold processConfig
  rw [pluginsPhase_eq, h]

theorem apRes_ok (pe : Option JsErr) (cfg : List (String × JsVal))
    (rs : List (String × JsVal)) (h : apRes pe cfg = .ok rs) :
    rs = directCopy cfg [] := by
  unfold apRes at h
  split at h
  · exact absurd h (by simp)
  · split at h
    · exact absurd h (by simp)
    · split at h
      · exact absurd h (by simp)
      · split at h
        · exact absurd h (by simp)
        · have h2 := h
          simp only [Except.ok.injEq] at h2
          exact h2.symm

theorem processConfig_ok_rs (s : ConfigState) (cfg : List (String × JsVal))
    (s1 : ConfigState) (rs : List (String × JsVal))
    (h : processConfig s cfg = (s1, .ok rs)) : rs = directCopy cfg [] := by
  cases he : pluginsErr cfg with
  | some e =>
    rw [processConfig_eq_err s cfg e he] at h
    simp at h
  | none =>
    rw [processConfig_eq_ok s cfg he] at h
    have h2 := congrArg Prod.snd h
    rw [afterPlugins_snd] at h2
    exact apRes_ok _ cfg rs h2

theorem directCopy_not_builtin (entries : List (String × JsVal))
    (rs₀ : List (String × JsVal))
    (h : ∀ kv ∈ rs₀, isBuiltin kv.1 = false) :
    ∀ kv ∈ directCopy entries rs₀, isBuiltin kv.1 = false := by
  induction entries generalizing rs₀ with
  | nil => simpa [directCopy] using h
  | cons kv rest ih =>
    intro x hx
    rw [show directCopy (kv :: rest) rs₀ =
      directCopy rest (if isBuiltin kv.1 then rs₀ else setKey rs₀ kv.1 kv.2)
      from rfl] at hx
    refine ih _ ?_ x hx
    intro y hy
    by_cases hb : isBuiltin kv.1 = true
    · rw [if_pos hb] at hy
      exact h y hy
    · rw [if_neg hb] at hy
      rcases mem_setKey rs₀ kv.1 kv.2 y hy with h1 | h1
      · rw [h1]
        simpa using hb
      · exact h y h1

theorem processConfig_of_pluginsOk (s : ConfigState)
    (cfg : List (String × JsVal)) (s1 : ConfigState)
    (hp : pluginsPhase s cfg = (s1, none)) :
    processConfig s cfg = afterPlugins s1 cfg := by
  unfold processConfig
  rw [hp]

theorem badPlugin_of_bad (ps1 : List JsVal) (p : JsVal) (ps2 : List JsVal)
    (hgood : ∀ q ∈ ps1, isFun q = true) (hbad : isFun p = false) :
    badPlugin (ps1 ++ p :: ps2) =
      some (.assertErr "plugin should be a function") := by
  induction ps1 with
  | nil =>
    cases p <;> first
      | rfl
      | simp [isFun] at hbad
  | cons q rest ih =>
    have hq := hgood q (List.mem_cons_self q rest)
    cases q with
    | funV acts =>
      exact ih fun r hr => hgood r (List.mem_cons_of_mem _ hr)
    | undefV => simp [isFun] at hq
    | nullV => simp [isFun] at hq
    | boolV b => simp [isFun] at hq
    | numV n => simp [isFun] at hq
    | strV str => simp [isFun] at hq
    | arrV xs => simp [isFun] at hq
    | objV fs => simp [isFun] at hq
    | ruleV id n => simp [isFun] at hq

theorem presetStep_not_string (s : ConfigState) (cfg : List (String × JsVal))
    (ht : truthy (getVal cfg "preset") = true)
    (hs : isStr (getVal cfg "preset") = false) :
    presetStep s cfg = some (.assertErr "preset option requires string value") := by
  unfold presetStep
  rw [if_pos ht]
  cases hv : getVal cfg "preset" with
  | strV n => rw [hv] at hs; simp [isStr] at hs
  | undefV => rfl
  | nullV => rfl
  | boolV b => rfl
  | numV n => rfl
  | arrV xs => rfl
  | objV fs => rfl
  | funV acts => rfl
  | ruleV id n => rfl

theorem presetStep_not_found (s : ConfigState) (cfg : List (String × JsVal))
    (n : String) (hv : getVal cfg "preset" = .strV n) (hn : n ≠ "")
    (hp : truthy (getVal s.presets n) = false) :
    presetStep s cfg =
      some (.assertErr ("preset \"" ++ n ++ "\" was not found")) := by
  have htr : truthy (getVal cfg "preset") = true := by
    rw [hv]; simp [truthy, hn]
  unfold presetStep
  rw [if_pos htr, hv]
  simp [hp]

theorem afterPlugins_presetErr (s : ConfigState)
    (cfg : List (String × JsVal)) (e : JsErr)
    (h : presetStep s cfg = some e) : afterPlugins s cfg = (s, .error e) := by
  unfold afterPlugins
  rw [h]

theorem fileExtStep_bad (s : ConfigState) (cfg : List (String × JsVal))
    (ht : truthy (getVal cfg "fileExtensions") = true)
    (hs : isStr (getVal cfg "fileExtensions") = false)
    (ha : isArr (getVal cfg "fileExtensions") = false) :
    fileExtStep s cfg =
      (s, some (.assertErr "fileExtensions option requires string or array value")) := by
  unfold fileExtStep
  rw [if_pos ht]
  cases hv : getVal cfg "fileExtensions" with
  | strV str => rw [hv] at hs; simp [isStr] at hs
  | arrV xs => rw [hv] at ha; simp [isArr] at ha
  | undefV => rfl
  | nullV => rfl
  | boolV b => rfl
  | numV n => rfl
  | objV fs => rfl
  | funV acts => rfl
  | ruleV id n => rfl

theorem excludeStep_bad (s : ConfigState) (cfg : List (String × JsVal))
    (ht : truthy (getVal cfg "excludeFiles") = true)
    (ha : isArr (getVal cfg "excludeFiles") = false) :
    excludeStep s cfg =
      (s, some (.assertErr "excludeFiles option requires array value")) := by
  unfold excludeStep
  rw [if_pos ht]
  cases hv : getVal cfg "excludeFiles" with
  | arrV xs => rw [hv] at ha; simp [isArr] at ha
  | undefV => rfl
  | nullV => rfl
  | boolV b => rfl
  | numV n => rfl
  | strV str => rfl
  | objV fs => rfl
  | funV acts => rfl
  | ruleV id n => rfl

theorem additionalRulesStep_bad (cfg : List (String × JsVal))
    (ht : truthy (getVal cfg "additionalRules") = true)
    (ha : isArr (getVal cfg "additionalRules") = false) :
    additionalRulesStep cfg =
      some (.assertErr "additionalRules option requires array value") := by
  unfold additionalRulesStep
  rw [if_pos ht]
  cases hv : getVal cfg "additionalRules" with
  | arrV xs => rw [hv] at ha; simp [isArr] at ha
  | undefV => rfl
  | nullV => rfl
  | boolV b => rfl
  | numV n => rfl
  | strV str => rfl
  | objV fs => rfl
  | funV acts => rfl
  | ruleV id n => rfl

theorem afterPlugins_fileExtErr (s : ConfigState)
    (cfg : List (String × JsVal)) (e : JsErr)
    (hp : presetStep s cfg = none)
    (hf : (fileExtStep s cfg).2 = some e) :
    afterPlugins s cfg = ((fileExtStep s cfg).1, .error e) := by
  unfold afterPlugins
  rw [hp, hf]

theorem afterPlugins_excludeErr (s : ConfigState)
    (cfg : List (String × JsVal)) (e : JsErr)
    (hp : presetStep s cfg = none)
    (hf : (fileExtStep s cfg).2 = none)
    (he : (excludeStep (fileExtStep s cfg).1 cfg).2 = some e) :
    afterPlugins s cfg = ((excludeStep (fileExtStep s cfg).1 cfg).1, .error e) := by
  unfold afterPlugins
  rw [hp, hf, he]

theorem afterPlugins_additionalErr (s : ConfigState)
    (cfg : List (String × JsVal)) (e : JsErr)
    (hp : presetStep s cfg = none)
    (hf : (fileExtStep s cfg).2 = none)
    (hex : (excludeStep (fileExtStep s cfg).1 cfg).2 = none)
    (ha : additionalRulesStep cfg = some e) :
    afterPlugins s cfg = ((excludeStep (fileExtStep s cfg).1 cfg).1, .error e) := by
  unfold afterPlugins
  rw [hp, hf, hex, ha]

theorem pluginsPhase_skip (s : ConfigState) (cfg : List (String × JsVal))
    (h : truthy (getVal cfg "plugins") = false) :
    pluginsPhase s cfg = (s, none) := by
  unfold pluginsPhase
  rw [if_neg (by simp [h])]

theorem presetStep_skip (s : ConfigState) (cfg : List (String × JsVal))
    (h : truthy (getVal cfg "preset") = false) : presetStep s cfg = none := by
  unfold presetStep
  rw [if_neg (by simp [h])]

theorem fileExtStep_skip (s : ConfigState) (cfg : List (String × JsVal))
    (h : truthy (getVal cfg "fileExtensions") = false) :
    fileExtStep s cfg = (s, none) := by
  unfold fileExtStep
  rw [if_neg (by simp [h])]

theorem excludeStep_skip (s : ConfigState) (cfg : List (String × JsVal))
    (h : truthy (getVal cfg "excludeFiles") = false) :
    excludeStep s cfg = (s, none) := by
  unfold excludeStep
  rw [if_neg (by simp [h])]

theorem additionalRulesStep_skip (cfg : List (String × JsVal))
    (h : truthy (getVal cfg "additionalRules") = false) :
    additionalRulesStep cfg = none := by
  unfold additionalRulesStep
  rw [if_neg (by simp [h])]

theorem pluginsPhase_congr (s : ConfigState)
    (cfg cfg' : List (String × JsVal))
    (h : getVal cfg "plugins" = getVal cfg' "plugins") :
    pluginsPhase s cfg = pluginsPhase s cfg' := by
  unfold pluginsPhase
  rw [h]

theorem presetStep_congr2 (s : ConfigState)
    (cfg cfg' : List (String × JsVal))
    (h : getVal cfg "preset" = getVal cfg' "preset") :
    presetStep s cfg = presetStep s cfg' := by
  unfold presetStep
  rw [h]

theorem fileExtStep_congr (s : ConfigState)
    (cfg cfg' : List (String × JsVal))
    (h : getVal cfg "fileExtensions" = getVal cfg' "fileExtensions") :
    fileExtStep s cfg = fileExtStep s cfg' := by
  unfold fileExtStep
  rw [h]

theorem excludeStep_congr (s : ConfigState)
    (cfg cfg' : List (String × JsVal))
    (h : getVal cfg "excludeFiles" = getVal cfg' "excludeFiles") :
    excludeStep s cfg = excludeStep s cfg' := by
  unfold excludeStep
  rw [h]

theorem additionalRulesStep_congr (cfg cfg' : List (String × JsVal))
    (h : getVal cfg "additionalRules" = getVal cfg' "additionalRules") :
    additionalRulesStep cfg = additionalRulesStep cfg' := by
  unfold additionalRulesStep
  rw [h]

theorem directCopy_removeKey (cfg : List (String × JsVal)) (k : String)
    (hb : isBuiltin k = true) :
    ∀ rs, directCopy (removeKey cfg k) rs = directCopy cfg rs := by
  induction cfg with
  | nil => intro rs; rfl
  | cons kv rest ih =>
    intro rs
    by_cases hk : (kv.1 == k) = true
    · have hkv : kv.1 = k := by simpa using hk
      have hbk : isBuiltin kv.1 = true := by rw [hkv]; exact hb
      rw [show removeKey (kv :: rest) k = removeKey rest k by
        simp [removeKey, List.filter_cons, bne, hk]]
      rw [show directCopy (kv :: rest) rs =
        directCopy rest (if isBuiltin kv.1 then rs else setKey rs kv.1 kv.2)
        from rfl]
      rw [if_pos hbk]
      exact ih rs
    · simp only [Bool.not_eq_true] at hk
      rw [show removeKey (kv :: rest) k = kv :: removeKey rest k by
        simp [removeKey, List.filter_cons, bne, hk]]
      rw [show directCopy (kv :: removeKey rest k) rs =
        directCopy (removeKey rest k)
          (if isBuiltin kv.1 then rs else setKey rs kv.1 kv.2) from rfl]
      rw [show directCopy (kv :: rest) rs =
        directCopy rest (if isBuiltin kv.1 then rs else setKey rs kv.1 kv.2)
        from rfl]
      exact ih _

theorem processConfig_congr (s : ConfigState)
    (cfg cfg' : List (String × JsVal))
    (h1 : ∀ t, pluginsPhase t cfg = pluginsPhase t cfg')
    (h2 : ∀ t, presetStep t cfg = presetStep t cfg')
    (h3 : ∀ t, fileExtStep t cfg = fileExtStep t cfg')
    (h4 : ∀ t, excludeStep t cfg = excludeStep t cfg')
    (h5 : additionalRulesStep cfg = additionalRulesStep cfg')
    (h6 : directCopy cfg [] = directCopy cfg' []) :
    processConfig s cfg = processConfig s cfg' := by
  have hap : ∀ t, afterPlugins t cfg = afterPlugins t cfg' := by
    intro t
    unfold afterPlugins
    simp only [h2, h3, h4, h5, h6]
  unfold processConfig
  rw [h1 s]
  simp only [hap]

/-! ### Claim theorems -/

/-- C1: the claim says that after a successful `load`, `getConfiguredRules()`
returns exactly the ordered list of configured rule instances.  The code
assigns `this._configuredRules` the return value of `Array.prototype.forEach`,
which is `undefined`, so even though the registered rule does receive its
`configure` call, `getConfiguredRules()` returns `undefined` rather than the
documented rule list.  This theorem evaluates the code at the failing
input. -/
theorem claim_C1_configured_rules_list_lost :
    (load { initialState with rules := [("disallow-empty-blocks", 1)] }
      [("disallow-empty-blocks", .boolV true)]).result = .ok () ∧
    (load { initialState with rules := [("disallow-empty-blocks", 1)] }
      [("disallow-empty-blocks", .boolV true)]).calls =
      [⟨1, "disallow-empty-blocks", .boolV true⟩] ∧
    getConfiguredRules
      (load { initialState with rules := [("disallow-empty-blocks", 1)] }
        [("disallow-empty-blocks", .boolV true)]).state = .undefV :=
  ⟨rfl, rfl, rfl⟩

/-- C2: the claim says preset keys are merged through a recursive run of the
configuration processor and overridden by the outer config.  The code calls
`this.process(presetData)`, but no `process` method exists, so any load that
names a registered preset throws a TypeError before any merging: the rule
registered at the shared key receives no `configure` call at all. -/
theorem claim_C2_preset_merge_crashes :
    load { initialState with
            rules := [("disallow-empty-blocks", 1)],
            presets := [("p", .objV [("disallow-empty-blocks", .boolV true)])] }
         [("preset", .strV "p"), ("disallow-empty-blocks", .boolV false)] =
      ⟨{ initialState with
            rules := [("disallow-empty-blocks", 1)],
            presets := [("p", .objV [("disallow-empty-blocks", .boolV true)])] },
       [], .error (.typeErr "this.process is not a function")⟩ := rfl

/-- C3: the claim says each element of a valid `additionalRules` sequence is
passed to the additional-rule loader.  The code reads
`config.additionalRules.plugins` — `undefined` on an array — and calls
`.forEach` on it, so every load with an `additionalRules` array (here a
single valid rule object) throws a TypeError and no element reaches the
loader. -/
theorem claim_C3_additional_rules_crash :
    load initialState [("additionalRules", .arrV [.ruleV 7 "extra-rule"])] =
      ⟨initialState, [],
       .error (.typeErr "Cannot read property forEach of undefined")⟩ := rfl

/-- C7: a present truthy `fileExtensions` value must be a string or an
array; a bare string is normalized to a single-element sequence, an array is
taken as is, anything else is rejected, and the result replaces the default
file-extension list, so `load({fileExtensions: ".jsx"})` makes
`getFileExtensions()` return exactly `[".jsx"]`. -/
theorem claim_C7_file_extensions_normalization :
    (∀ s cfg str, getVal cfg "fileExtensions" = .strV str → str ≠ "" →
      fileExtStep s cfg = ({ s with fileExtensions := [.strV str] }, none)) ∧
    (∀ s cfg xs, getVal cfg "fileExtensions" = .arrV xs →
      fileExtStep s cfg = ({ s with fileExtensions := xs }, none)) ∧
    (∀ s cfg, truthy (getVal cfg "fileExtensions") = true →
      isStr (getVal cfg "fileExtensions") = false →
      isArr (getVal cfg "fileExtensions") = false →
      fileExtStep s cfg =
        (s, some (.assertErr "fileExtensions option requires string or array value"))) ∧
    ((load initialState [("fileExtensions", .strV ".jsx")]).result = .ok () ∧
      getFileExtensions
        (load initialState [("fileExtensions", .strV ".jsx")]).state =
        [.strV ".jsx"]) := by
  refine ⟨?_, ?_, ?_, rfl, rfl⟩
  · intro s cfg str h hne
    simp [fileExtStep, h, truthy, bne, hne]
  · intro s cfg xs h
    simp [fileExtStep, h, truthy]
  · intro s cfg ht hs ha
    cases hv : getVal cfg "fileExtensions" with
    | strV str => rw [hv] at hs; simp [isStr] at hs
    | arrV xs => rw [hv] at ha; simp [isArr] at ha
    | undefV => rw [hv] at ht; simp [truthy] at ht
    | nullV => rw [hv] at ht; simp [truthy] at ht
    | boolV b =>
      rw [hv] at ht
      simp [truthy] at ht
      simp [fileExtStep, hv, truthy, ht]
    | numV n =>
      rw [hv] at ht
      simp [truthy] at ht
      simp [fileExtStep, hv, truthy, ht]
    | objV fs => simp [fileExtStep, hv, truthy]
    | funV acts => simp [fileExtStep, hv, truthy]
    | ruleV id n => simp [fileExtStep, hv, truthy]

/-- C7 witness: the string clause at the concrete scenario input. -/
theorem claim_C7_witness :
    fileExtStep initialState [("fileExtensions", .strV ".jsx")] =
      ({ initialState with fileExtensions := [.strV ".jsx"] }, none) :=
  claim_C7_file_extensions_normalization.1 initialState
    [("fileExtensions", .strV ".jsx")] ".jsx" rfl (by decide)

/-- C8 counterexample: the claim says every value that is not a rule object
fails with the InvalidAdditionalRule assertion.  `null` is not a rule
object, yet `typeof null === "object"` passes the assertion and the failure
is instead a TypeError raised by `registerRule` reading `getOptionName`. -/
theorem claim_C8_counterexample :
    loadAdditionalRule initialState JsVal.nullV =
      .error (.typeErr "Cannot read property getOptionName of null") ∧
    ¬ loadAdditionalRule initialState JsVal.nullV =
      .error (.assertErr "additionalRule should be an object") := by
  refine ⟨rfl, ?_⟩
  intro h
  simp [loadAdditionalRule, registerRule, typeofObject] at h

/-- C8 (amended): values whose `typeof` is not `"object"` (strings, numbers,
booleans, functions, `undefined`) fail the InvalidAdditionalRule assertion;
a rule object is registered under its option name; a non-rule value of
object type (`null`, arrays, plain objects) also registers nothing, but
fails with a TypeError from the `getOptionName` access instead of the
InvalidAdditionalRule assertion. -/
theorem claim_C8_additional_rule_loader :
    (∀ s v, typeofObject v = false →
      loadAdditionalRule s v =
        .error (.assertErr "additionalRule should be an object")) ∧
    (∀ s id name, loadAdditionalRule s (.ruleV id name) =
      .ok { s with rules := setKey s.rules name id }) ∧
    (∀ s v, typeofObject v = true → isRuleObj v = false →
      ∃ m, loadAdditionalRule s v = .error (.typeErr m)) := by
  refine ⟨?_, ?_, ?_⟩
  · intro s v h
    simp [loadAdditionalRule, h]
  · intro s id name
    rfl
  · intro s v h hr
    cases v with
    | nullV => exact ⟨_, rfl⟩
    | arrV xs => exact ⟨_, rfl⟩
    | objV fs => exact ⟨_, rfl⟩
    | ruleV id n => simp [isRuleObj] at hr
    | undefV => simp [typeofObject] at h
    | boolV b => simp [typeofObject] at h
    | numV n => simp [typeofObject] at h
    | strV str => simp [typeofObject] at h
    | funV acts => simp [typeofObject] at h

/-- C8 witness: a string value is rejected with the InvalidAdditionalRule
assertion. -/
theorem claim_C8_witness :
    loadAdditionalRule initialState (JsVal.strV "x") =
      .error (.assertErr "additionalRule should be an object") :=
  claim_C8_additional_rule_loader.1 initialState (JsVal.strV "x") rfl

/-- C4: when processing succeeds and some rule-settings keys match no
registered rule, every key is still attempted — each matching key yields its
rule's `configure` call with the entry value — and `load` then fails with an
error whose message enumerates every unmatched key name, comma-separated, in
encounter order. -/
theorem claim_C4_unsupported_rules_aggregated
    (s : ConfigState) (cfg : List (String × JsVal))
    (s1 : ConfigState) (rs : List (String × JsVal))
    (h : processConfig s cfg = (s1, .ok rs))
    (hne : unsupportedKeys s1.rules rs ≠ []) :
    (load s cfg).calls = matchedCalls s1.rules rs ∧
    (load s cfg).result = .error (.genericErr ("Unsupported rules: " ++
      String.intercalate ", " (unsupportedKeys s1.rules rs))) := by
  rw [load_ok s cfg s1 rs h, applyRules_eq]
  have hb : (unsupportedKeys s1.rules rs).isEmpty = false := by
    cases hu : unsupportedKeys s1.rules rs with
    | nil => exact absurd hu hne
    | cons a l => rfl
  exact ⟨rfl, by simp [hb]⟩

/-- C4 witness: with registered rule `known-rule` and the two unknown keys
`k1` then `k2`, the rule is configured and the failure lists exactly
`k1, k2`. -/
theorem claim_C4_witness :
    processConfig { initialState with rules := [("known-rule", 1)] }
        [("known-rule", .boolV true), ("k1", .boolV true), ("k2", .boolV false)] =
      ({ initialState with rules := [("known-rule", 1)] },
       .ok [("known-rule", .boolV true), ("k1", .boolV true), ("k2", .boolV false)]) ∧
    unsupportedKeys [("known-rule", 1)]
        [("known-rule", .boolV true), ("k1", .boolV true), ("k2", .boolV false)] =
      ["k1", "k2"] ∧
    (load { initialState with rules := [("known-rule", 1)] }
        [("known-rule", .boolV true), ("k1", .boolV true), ("k2", .boolV false)]).calls =
      [⟨1, "known-rule", .boolV true⟩] ∧
    (load { initialState with rules := [("known-rule", 1)] }
        [("known-rule", .boolV true), ("k1", .boolV true), ("k2", .boolV false)]).result =
      .error (.genericErr "Unsupported rules: k1, k2") := by
  have h := claim_C4_unsupported_rules_aggregated
    { initialState with rules := [("known-rule", 1)] }
    [("known-rule", .boolV true), ("k1", .boolV true), ("k2", .boolV false)]
    { initialState with rules := [("known-rule", 1)] }
    [("known-rule", .boolV true), ("k1", .boolV true), ("k2", .boolV false)]
    rfl (by decide)
  exact ⟨rfl, rfl, h.1, h.2⟩

/-- C6: a rule-settings mapping produced by a successful run of the
configuration processor never contains any of the five reserved keys: every
copied key is filtered against the fixed `BUILTIN_OPTIONS` set. -/
theorem claim_C6_no_reserved_keys_in_rule_settings
    (s : ConfigState) (cfg : List (String × JsVal))
    (s1 : ConfigState) (rs : List (String × JsVal)) (k : String)
    (h : processConfig s cfg = (s1, .ok rs)) (hk : k ∈ BUILTIN_OPTIONS) :
    lookupKey rs k = none := by
  have hrs := processConfig_ok_rs s cfg s1 rs h
  subst hrs
  have hall := directCopy_not_builtin cfg [] (by simp)
  have hkt : isBuiltin k = true := by
    simp only [BUILTIN_OPTIONS, List.mem_cons, List.mem_singleton,
      List.not_mem_nil, or_false] at hk
    rcases hk with h1 | h1 | h1 | h1 | h1 <;> simp [isBuiltin, h1]
  have hfind : (directCopy cfg []).find? (fun kv => kv.1 == k) = none := by
    rw [List.find?_eq_none]
    intro x hx hbeq
    have hxk : x.1 = k := by simpa using hbeq
    have hxb := hall x hx
    rw [hxk, hkt] at hxb
    exact absurd hxb (by simp)
  simp [lookupKey, hfind]

/-- C6 witness: a config carrying falsy reserved keys alongside a rule key
processes successfully and the mapping has no entry for the reserved key
`preset`. -/
theorem claim_C6_witness :
    processConfig initialState
        [("preset", .boolV false), ("excludeFiles", .numV 0), ("foo", .boolV true)] =
      (initialState, .ok [("foo", .boolV true)]) ∧
    "preset" ∈ BUILTIN_OPTIONS ∧
    lookupKey [("foo", JsVal.boolV true)] "preset" = none := by
  refine ⟨rfl, by decide, ?_⟩
  exact claim_C6_no_reserved_keys_in_rule_settings initialState
    [("preset", .boolV false), ("excludeFiles", .numV 0), ("foo", .boolV true)]
    initialState [("foo", .boolV true)] "preset" rfl (by decide)

/-- C5: each structural validation failure of the configuration processor —
plugins not an array, a plugin element not callable, preset not a string,
named preset not registered, fileExtensions neither string nor array,
excludeFiles not an array, additionalRules not an array — aborts `load`
immediately with its own distinct error: the returned state is exactly the
state accumulated by the steps already executed (side effects of earlier
plugin elements are kept, nothing later runs, no `configure` call is made),
and the six fixed assertion messages are pairwise distinct. -/
theorem claim_C5_structural_failures_fail_fast :
    (∀ s cfg, truthy (getVal cfg "plugins") = true →
      isArr (getVal cfg "plugins") = false →
      load s cfg =
        ⟨s, [], .error (.assertErr "plugins option requires array value")⟩) ∧
    (∀ s cfg ps1 p ps2, getVal cfg "plugins" = .arrV (ps1 ++ p :: ps2) →
      (∀ q ∈ ps1, isFun q = true) → isFun p = false →
      load s cfg = ⟨runActions s (goodActs (ps1 ++ p :: ps2)), [],
        .error (.assertErr "plugin should be a function")⟩) ∧
    (∀ s cfg s1, pluginsPhase s cfg = (s1, none) →
      truthy (getVal cfg "preset") = true →
      isStr (getVal cfg "preset") = false →
      load s cfg =
        ⟨s1, [], .error (.assertErr "preset option requires string value")⟩) ∧
    (∀ s cfg s1 n, pluginsPhase s cfg = (s1, none) →
      getVal cfg "preset" = .strV n → n ≠ "" →
      truthy (getVal s1.presets n) = false →
      load s cfg = ⟨s1, [],
        .error (.assertErr ("preset \"" ++ n ++ "\" was not found"))⟩) ∧
    (∀ s cfg s1, pluginsPhase s cfg = (s1, none) → presetStep s1 cfg = none →
      truthy (getVal cfg "fileExtensions") = true →
      isStr (getVal cfg "fileExtensions") = false →
      isArr (getVal cfg "fileExtensions") = false →
      load s cfg = ⟨s1, [],
        .error (.assertErr "fileExtensions option requires string or array value")⟩) ∧
    (∀ s cfg s1 s2, pluginsPhase s cfg = (s1, none) →
      presetStep s1 cfg = none → fileExtStep s1 cfg = (s2, none) →
      truthy (getVal cfg "excludeFiles") = true →
      isArr (getVal cfg "excludeFiles") = false →
      load s cfg = ⟨s2, [],
        .error (.assertErr "excludeFiles option requires array value")⟩) ∧
    (∀ s cfg s1 s2 s3, pluginsPhase s cfg = (s1, none) →
      presetStep s1 cfg = none → fileExtStep s1 cfg = (s2, none) →
      excludeStep s2 cfg = (s3, none) →
      truthy (getVal cfg "additionalRules") = true →
      isArr (getVal cfg "additionalRules") = false →
      load s cfg = ⟨s3, [],
        .error (.assertErr "additionalRules option requires array value")⟩) ∧
    List.Nodup ["plugins option requires array value",
      "plugin should be a function", "preset option requires string value",
      "fileExtensions option requires string or array value",
      "excludeFiles option requires array value",
      "additionalRules option requires array value"] := by
  refine ⟨?_, ?_, ?_, ?_, ?_, ?_, ?_, by decide⟩
  · intro s cfg ht ha
    have h1 : pluginsErr cfg =
        some (.assertErr "plugins option requires array value") := by
      unfold pluginsErr
      rw [if_pos ht]
      cases hv : getVal cfg "plugins" with
      | arrV ps => rw [hv] at ha; simp [isArr] at ha
      | undefV => rfl
      | nullV => rfl
      | boolV b => rfl
      | numV n => rfl
      | strV str => rfl
      | objV fs => rfl
      | funV acts => rfl
      | ruleV id n => rfl
    have h2 : cfgActs cfg = [] := by
      unfold cfgActs
      cases hv : getVal cfg "plugins" with
      | arrV ps => rw [hv] at ha; simp [isArr] at ha
      | undefV => rfl
      | nullV => rfl
      | boolV b => rfl
      | numV n => rfl
      | strV str => rfl
      | objV fs => rfl
      | funV acts => rfl
      | ruleV id n => rfl
    rw [load_error s cfg _ _ (processConfig_eq_err s cfg _ h1), h2]
    rfl
  · intro s cfg ps1 p ps2 hv hgood hbad
    have h1 : pluginsErr cfg =
        some (.assertErr "plugin should be a function") := by
      unfold pluginsErr
      rw [hv]
      exact badPlugin_of_bad ps1 p ps2 hgood hbad
    have h2 : cfgActs cfg = goodActs (ps1 ++ p :: ps2) := by
      unfold cfgActs
      rw [hv]
    rw [load_error s cfg _ _ (processConfig_eq_err s cfg _ h1), h2]
  · intro s cfg s1 hp ht hs
    exact load_error s cfg s1 _
      ((processConfig_of_pluginsOk s cfg s1 hp).trans
        (afterPlugins_presetErr s1 cfg _ (presetStep_not_string s1 cfg ht hs)))
  · intro s cfg s1 n hp hv hn hpz
    exact load_error s cfg s1 _
      ((processConfig_of_pluginsOk s cfg s1 hp).trans
        (afterPlugins_presetErr s1 cfg _
          (presetStep_not_found s1 cfg n hv hn hpz)))
  · intro s cfg s1 hp hpre ht hs ha
    have hf := fileExtStep_bad s1 cfg ht hs ha
    have h2 := afterPlugins_fileExtErr s1 cfg _ hpre (by rw [hf])
    rw [hf] at h2
    exact load_error s cfg _ _
      ((processConfig_of_pluginsOk s cfg s1 hp).trans h2)
  · intro s cfg s1 s2 hp hpre hf ht ha
    have hf1 : (fileExtStep s1 cfg).1 = s2 := by rw [hf]
    have hf2 : (fileExtStep s1 cfg).2 = none := by rw [hf]
    have hex := excludeStep_bad s2 cfg ht ha
    rw [← hf1] at hex
    have h2 := afterPlugins_excludeErr s1 cfg _ hpre hf2 (by rw [hex])
    rw [hex, hf1] at h2
    exact load_error s cfg _ _
      ((processConfig_of_pluginsOk s cfg s1 hp).trans h2)
  · intro s cfg s1 s2 s3 hp hpre hf hex ht ha
    have hf1 : (fileExtStep s1 cfg).1 = s2 := by rw [hf]
    have hf2 : (fileExtStep s1 cfg).2 = none := by rw [hf]
    rw [← hf1] at hex
    have haerr := additionalRulesStep_bad cfg ht ha
    have h2 := afterPlugins_additionalErr s1 cfg _ hpre hf2 (by rw [hex]) haerr
    rw [hex] at h2
    exact load_error s cfg _ _
      ((processConfig_of_pluginsOk s cfg s1 hp).trans h2)

/-- C5 witness: a truthy non-array `plugins` value aborts `load` immediately
with the array assertion and an untouched engine state. -/
theorem claim_C5_witness :
    load initialState [("plugins", .strV "x")] =
      ⟨initialState, [],
       .error (.assertErr "plugins option requires array value")⟩ :=
  claim_C5_structural_failures_fail_fast.1 initialState
    [("plugins", .strV "x")] rfl rfl

/-- C10: a reserved key bound to a falsy value is treated exactly as if it
were absent: because every step tests presence by truthiness, the processor
performs no type validation on it, raises no error from it, and produces the
same state and outcome as for the configuration with that key removed. -/
theorem claim_C10_falsy_reserved_key_is_absent (s : ConfigState)
    (cfg : List (String × JsVal)) (k : String)
    (hb : isBuiltin k = true) (hf : truthy (getVal cfg k) = false) :
    processConfig s cfg = processConfig s (removeKey cfg k) := by
  have hks : k = "plugins" ∨ k = "preset" ∨ k = "excludeFiles" ∨
      k = "additionalRules" ∨ k = "fileExtensions" := by
    simpa [isBuiltin, or_assoc] using hb
  rcases hks with hk | hk | hk | hk | hk <;> subst hk
  · exact processConfig_congr s cfg _
      (fun t => by
        rw [pluginsPhase_skip t cfg hf,
          pluginsPhase_skip t _ (by simp [getVal_removeKey_self, truthy])])
      (fun t => presetStep_congr2 t cfg _
        (getVal_removeKey_ne cfg "plugins" "preset" (by decide)).symm)
      (fun t => fileExtStep_congr t cfg _
        (getVal_removeKey_ne cfg "plugins" "fileExtensions" (by decide)).symm)
      (fun t => excludeStep_congr t cfg _
        (getVal_removeKey_ne cfg "plugins" "excludeFiles" (by decide)).symm)
      (additionalRulesStep_congr cfg _
        (getVal_removeKey_ne cfg "plugins" "additionalRules" (by decide)).symm)
      (directCopy_removeKey cfg "plugins" hb []).symm
  · exact processConfig_congr s cfg _
      (fun t => pluginsPhase_congr t cfg _
        (getVal_removeKey_ne cfg "preset" "plugins" (by decide)).symm)
      (fun t => by
        rw [presetStep_skip t cfg hf,
          presetStep_skip t _ (by simp [getVal_removeKey_self, truthy])])
      (fun t => fileExtStep_congr t cfg _
        (getVal_removeKey_ne cfg "preset" "fileExtensions" (by decide)).symm)
      (fun t => excludeStep_congr t cfg _
        (getVal_removeKey_ne cfg "preset" "excludeFiles" (by decide)).symm)
      (additionalRulesStep_congr cfg _
        (getVal_removeKey_ne cfg "preset" "additionalRules" (by decide)).symm)
      (directCopy_removeKey cfg "preset" hb []).symm
  · exact processConfig_congr s cfg _
      (fun t => pluginsPhase_congr t cfg _
        (getVal_removeKey_ne cfg "excludeFiles" "plugins" (by decide)).symm)
      (fun t => presetStep_congr2 t cfg _
        (getVal_removeKey_ne cfg "excludeFiles" "preset" (by decide)).symm)
      (fun t => fileExtStep_congr t cfg _
        (getVal_removeKey_ne cfg "excludeFiles" "fileExtensions"
          (by decide)).symm)
      (fun t => by
        rw [excludeStep_skip t cfg hf,
          excludeStep_skip t _ (by simp [getVal_removeKey_self, truthy])])
      (additionalRulesStep_congr cfg _
        (getVal_removeKey_ne cfg "excludeFiles" "additionalRules"
          (by decide)).symm)
      (directCopy_removeKey cfg "excludeFiles" hb []).symm
  · exact processConfig_congr s cfg _
      (fun t => pluginsPhase_congr t cfg _
        (getVal_removeKey_ne cfg "additionalRules" "plugins" (by decide)).symm)
      (fun t => presetStep_congr2 t cfg _
        (getVal_removeKey_ne cfg "additionalRules" "preset" (by decide)).symm)
      (fun t => fileExtStep_congr t cfg _
        (getVal_removeKey_ne cfg "additionalRules" "fileExtensions"
          (by decide)).symm)
      (fun t => excludeStep_congr t cfg _
        (getVal_removeKey_ne cfg "additionalRules" "excludeFiles"
          (by decide)).symm)
      (by
        rw [additionalRulesStep_skip cfg hf,
          additionalRulesStep_skip _ (by simp [getVal_removeKey_self, truthy])])
      (directCopy_removeKey cfg "additionalRules" hb []).symm
  · exact processConfig_congr s cfg _
      (fun t => pluginsPhase_congr t cfg _
        (getVal_removeKey_ne cfg "fileExtensions" "plugins" (by decide)).symm)
      (fun t => presetStep_congr2 t cfg _
        (getVal_removeKey_ne cfg "fileExtensions" "preset" (by decide)).symm)
      (fun t => by
        rw [fileExtStep_skip t cfg hf,
          fileExtStep_skip t _ (by simp [getVal_removeKey_self, truthy])])
      (fun t => excludeStep_congr t cfg _
        (getVal_removeKey_ne cfg "fileExtensions" "excludeFiles"
          (by decide)).symm)
      (additionalRulesStep_congr cfg _
        (getVal_removeKey_ne cfg "fileExtensions" "additionalRules"
          (by decide)).symm)
      (directCopy_removeKey cfg "fileExtensions" hb []).symm

/-- C10 witness: `plugins: false` behaves exactly like a configuration
without the `plugins` key. -/
theorem claim_C10_witness :
    isBuiltin "plugins" = true ∧
    truthy (getVal [("plugins", JsVal.boolV false), ("x", JsVal.boolV true)]
      "plugins") = false ∧
    processConfig initialState
        [("plugins", .boolV false), ("x", .boolV true)] =
      processConfig initialState
        (removeKey [("plugins", .boolV false), ("x", .boolV true)] "plugins") :=
  ⟨rfl, rfl,
   claim_C10_falsy_reserved_key_is_absent initialState
     [("plugins", .boolV false), ("x", .boolV true)] "plugins" rfl rfl⟩

/-- C9: running `load` a second time with the same configuration from the
state left by the first run is idempotent with respect to the observable
configuration outcome: the second call succeeds or fails exactly like the
first, performs the same `configure` calls (same rules by option name, same
settings values), and leaves the same `configuredRules` value. -/
theorem claim_C9_load_idempotent (s : ConfigState)
    (cfg : List (String × JsVal)) :
    (load s cfg).result = (load (load s cfg).state cfg).result ∧
    (load s cfg).calls = (load (load s cfg).state cfg).calls ∧
    ((load s cfg).state).configuredRules =
      ((load (load s cfg).state cfg).state).configuredRules := by
  cases he : pluginsErr cfg with
  | some e =>
    have hl1 := load_error s cfg _ e (processConfig_eq_err s cfg e he)
    have hl2 := load_error (runActions s (cfgActs cfg)) cfg _ e
      (processConfig_eq_err (runActions s (cfgActs cfg)) cfg e he)
    refine ⟨?_, ?_, ?_⟩ <;>
      simp only [hl1, hl2, runActions_configuredRules]
  | none =>
    have h1 := processConfig_eq_ok s cfg he
    rcases hap : afterPlugins (runActions s (cfgActs cfg)) cfg with ⟨u1, res⟩
    have hu1r : u1.rules = (runActions s (cfgActs cfg)).rules := by
      have hx := afterPlugins_rules (runActions s (cfgActs cfg)) cfg
      rw [hap] at hx
      exact hx
    have hu1p : u1.presets = (runActions s (cfgActs cfg)).presets := by
      have hx := afterPlugins_presets (runActions s (cfgActs cfg)) cfg
      rw [hap] at hx
      exact hx
    have hu1c : u1.configuredRules = s.configuredRules := by
      have hx := afterPlugins_configuredRules (runActions s (cfgActs cfg)) cfg
      rw [hap] at hx
      rw [hx, runActions_configuredRules]
    cases res with
    | error e =>
      have hl1 := load_error s cfg u1 e (by rw [h1, hap])
      have h2 := processConfig_eq_ok u1 cfg he
      have hpres : ∀ n,
          lookupKey (runActions u1 (cfgActs cfg)).presets n =
            lookupKey (runActions s (cfgActs cfg)).presets n := by
        intro n
        exact runActions_presets_idem s u1 (cfgActs cfg) n (by rw [hu1p])
      have hsnd := afterPlugins_snd_congr (runActions u1 (cfgActs cfg))
        (runActions s (cfgActs cfg)) cfg hpres
      rw [hap] at hsnd
      rcases hap2 : afterPlugins (runActions u1 (cfgActs cfg)) cfg
        with ⟨u2, res2⟩
      rw [hap2] at hsnd
      have hres2 : res2 = .error e := hsnd
      have hl2 := load_error u1 cfg u2 e (by rw [h2, hap2, hres2])
      have hu2c : u2.configuredRules = u1.configuredRules := by
        have hx :=
          afterPlugins_configuredRules (runActions u1 (cfgActs cfg)) cfg
        rw [hap2] at hx
        rw [hx, runActions_configuredRules]
      refine ⟨?_, ?_, ?_⟩ <;> simp only [hl1, hl2, hu2c]
    | ok rs =>
      have hl1 := load_ok s cfg u1 rs (by rw [h1, hap])
      have h2 :=
        processConfig_eq_ok { u1 with configuredRules := .undefV } cfg he
      have hpres : ∀ n,
          lookupKey (runActions { u1 with configuredRules := JsVal.undefV }
            (cfgActs cfg)).presets n =
            lookupKey (runActions s (cfgActs cfg)).presets n := by
        intro n
        refine runActions_presets_idem s _ (cfgActs cfg) n ?_
        show lookupKey u1.presets n =
          lookupKey (runActions s (cfgActs cfg)).presets n
        rw [hu1p]
      have hsnd := afterPlugins_snd_congr
        (runActions { u1 with configuredRules := JsVal.undefV } (cfgActs cfg))
        (runActions s (cfgActs cfg)) cfg hpres
      rw [hap] at hsnd
      rcases hap2 : afterPlugins
          (runActions { u1 with configuredRules := JsVal.undefV }
            (cfgActs cfg)) cfg with ⟨u2, res2⟩
      rw [hap2] at hsnd
      have hres2 : res2 = .ok rs := hsnd
      have hl2 := load_ok { u1 with configuredRules := .undefV } cfg u2 rs
        (by rw [h2, hap2, hres2])
      have hu2r : u2.rules =
          (runActions { u1 with configuredRules := JsVal.undefV }
            (cfgActs cfg)).rules := by
        have hx := afterPlugins_rules
          (runActions { u1 with configuredRules := JsVal.undefV }
            (cfgActs cfg)) cfg
        rw [hap2] at hx
        exact hx
      have hrule : ∀ k, lookupKey u2.rules k = lookupKey u1.rules k := by
        intro k
        rw [hu2r]
        have hidem := runActions_rules_idem s
          { u1 with configuredRules := JsVal.undefV } (cfgActs cfg) k
          (by
            show lookupKey u1.rules k =
              lookupKey (runActions s (cfgActs cfg)).rules k
            rw [hu1r])
        rw [hidem, ← hu1r]
      have hAR : applyRules u2.rules rs = applyRules u1.rules rs :=
        applyRules_congr _ _ rs hrule
      refine ⟨?_, ?_, ?_⟩ <;> simp only [hl1, hl2, hAR]

end JscsConfig
